import Mathlib

/-!
Verification of the mediamtx repository core against its specification.

This file shallowly embeds the parts of the source code that the checked
properties are about:
- the single-goroutine request handlers of `program.run` (announce,
  setup-play, UDP frame dispatch) and the shutdown sequence of `program.run`
  and `program.close` (src/unnamed/part_000);
- `program.findConfForPathName` (src/unnamed/part_000);
- the credential model of internal/conf (modelled from the spec and its
  tests, the implementation file being absent from the sources);
- the static-source run functions of internal/core (rtmp_source.go,
  udp_source.go), as event-trace generators;
- the recorder agent of package record (H264 case and `updateCodecs`);
- `externalcmd.Cmd.run` (internal/externalcmd/cmd.go);
- `jpegExtractSize` of package record.

Go maps are modelled as association lists, pointers as keys, channels as
explicit request/response values, and goroutine interleavings as input
scripts driving trace-generating functions.
-/

namespace Mediamtx

/-! ## Association lists (model of Go maps) -/

def alookup {κ α : Type} [DecidableEq κ] : List (κ × α) → κ → Option α
  | [], _ => none
  | (k, v) :: rest, k' => if k' = k then some v else alookup rest k'

def aupdate {κ α : Type} [DecidableEq κ] : List (κ × α) → κ → α → List (κ × α)
  | [], k, v => [(k, v)]
  | (k0, v0) :: rest, k, v =>
    if k = k0 then (k, v) :: rest else (k0, v0) :: aupdate rest k v

theorem alookup_aupdate_self {κ α : Type} [DecidableEq κ]
    (l : List (κ × α)) (k : κ) (v : α) : alookup (aupdate l k v) k = some v := by
  induction l with
  | nil => simp [alookup, aupdate]
  | cons hd tl ih =>
    obtain ⟨k0, v0⟩ := hd
    by_cases h : k = k0
    · simp [alookup, aupdate, h]
    · simp [alookup, aupdate, h, ih]

theorem alookup_aupdate_ne {κ α : Type} [DecidableEq κ]
    (l : List (κ × α)) (k k' : κ) (v : α) (h : k' ≠ k) :
    alookup (aupdate l k v) k' = alookup l k' := by
  induction l with
  | nil => simp [alookup, aupdate, h]
  | cons hd tl ih =>
    obtain ⟨k0, v0⟩ := hd
    by_cases h0 : k = k0
    · subst h0
      simp [alookup, aupdate, h]
    · by_cases h1 : k' = k0
      · simp [alookup, aupdate, h0, h1]
      · simp [alookup, aupdate, h0, h1, ih]

/-! ## Data model of `program` (src/unnamed/part_000)

Clients are identified by numeric keys (Go uses pointers); a client's
`path` field holds the bound path name.  The parsed SDP of a publisher is
represented by the datum the handlers inspect: the number of its media
descriptions. -/

inductive clientState
  | stateInitial
  | stateWaitingDescription
  | statePrePlay
  | statePlay
  | statePreRecord
  | stateRecord
deriving DecidableEq, Repr

structure client where
  path : Option String
  state : clientState
  onFrameCalls : Nat
deriving DecidableEq, Repr

structure path where
  name : String
  confp : Option Nat
  publisher : Option Nat
  publisherReady : Bool
  publisherSdpText : String
  publisherSdpParsed : Nat
deriving DecidableEq, Repr

inductive streamType
  | rtp
  | rtcp
deriving DecidableEq, Repr

structure udpClient where
  clientId : Nat
  trackId : Nat
  streamType : streamType
deriving DecidableEq, Repr

def makeUdpClientAddr (ip : List Nat) (port : Nat) : List Nat × Nat := (ip, port)

structure programState where
  confPaths : List (String × Nat)
  paths : List (String × path)
  clients : List (Nat × client)
  udpClientsByAddr : List ((List Nat × Nat) × udpClient)
  hasServerRtp : Bool
  hasServerRtcp : Bool
  metricsEnabled : Bool
  pprofEnabled : Bool
  logFileOpen : Bool
deriving DecidableEq, Repr

/-- Embeds `program.findConfForPathName`: exact key first, then the catch-all
entry stored under key `all`, else none. -/
def findConfForPathName (s : programState) (name : String) : Option Nat :=
  match alookup s.confPaths name with
  | some confp => some confp
  | none => alookup s.confPaths "all"

/-- Modelled from the spec: `newPath` is not among the provided sources
(only its call sites are).  A freshly created path has no publisher bound
and is not ready. -/
def newPath (name : String) (confp : Option Nat) : path :=
  { name := name, confp := confp, publisher := none, publisherReady := false,
    publisherSdpText := "", publisherSdpParsed := 0 }

/-! ## clientAnnounce handler (src/unnamed/part_000 lines 225-243) -/

structure clientAnnounceReq where
  clientId : Nat
  pathName : String
  sdpText : String
  sdpParsed : Nat
deriving DecidableEq, Repr

def errAlreadyPublishing (name : String) : String :=
  "someone is already publishing on path " ++ name

def setClientPathState (clients : List (Nat × client)) (id : Nat)
    (pathName : String) (st : clientState) : List (Nat × client) :=
  match alookup clients id with
  | some c => aupdate clients id { c with path := some pathName, state := st }
  | none => aupdate clients id { path := some pathName, state := st, onFrameCalls := 0 }

def bindAnnounce (s : programState) (req : clientAnnounceReq) (pa : path) :
    programState × Option String :=
  let pa' := { pa with publisher := some req.clientId,
                       publisherSdpText := req.sdpText,
                       publisherSdpParsed := req.sdpParsed }
  ({ s with paths := aupdate s.paths req.pathName pa',
            clients := setClientPathState s.clients req.clientId req.pathName .statePreRecord },
   none)

def handleClientAnnounce (s : programState) (req : clientAnnounceReq) :
    programState × Option String :=
  match alookup s.paths req.pathName with
  | some pa =>
    if pa.publisher.isSome then
      (s, some (errAlreadyPublishing req.pathName))
    else
      bindAnnounce s req pa
  | none =>
    bindAnnounce s req (newPath req.pathName (findConfForPathName s req.pathName))

/-- C1: at most one publisher per path: an announce request for a path whose
publisher field is non-nil is answered with an already-publishing error and
the whole program state (in particular the publisher binding) is left
unchanged; when the publisher field is nil or the path is newly created,
the requester becomes the publisher. -/
theorem announce_single_publisher (s : programState) (req : clientAnnounceReq) :
    (∀ pa c, alookup s.paths req.pathName = some pa → pa.publisher = some c →
      handleClientAnnounce s req = (s, some (errAlreadyPublishing req.pathName))) ∧
    (∀ pa, alookup s.paths req.pathName = some pa → pa.publisher = none →
      alookup (handleClientAnnounce s req).1.paths req.pathName =
        some { pa with publisher := some req.clientId,
                       publisherSdpText := req.sdpText,
                       publisherSdpParsed := req.sdpParsed } ∧
      (handleClientAnnounce s req).2 = none) ∧
    (alookup s.paths req.pathName = none →
      alookup (handleClientAnnounce s req).1.paths req.pathName =
        some { newPath req.pathName (findConfForPathName s req.pathName) with
                 publisher := some req.clientId,
                 publisherSdpText := req.sdpText,
                 publisherSdpParsed := req.sdpParsed } ∧
      (handleClientAnnounce s req).2 = none) := by
  refine ⟨?_, ?_, ?_⟩
  · intro pa c hlook hpub
    simp [handleClientAnnounce, hlook, hpub]
  · intro pa hlook hpub
    simp [handleClientAnnounce, hlook, hpub, bindAnnounce, alookup_aupdate_self]
  · intro hlook
    simp [handleClientAnnounce, hlook, bindAnnounce, alookup_aupdate_self]

def c1State : programState :=
  { confPaths := [], clients := [(7, { path := none, state := .stateInitial, onFrameCalls := 0 })],
    paths := [("live", { name := "live", confp := none, publisher := some 3,
                         publisherReady := true, publisherSdpText := "sdp",
                         publisherSdpParsed := 2 })],
    udpClientsByAddr := [], hasServerRtp := false, hasServerRtcp := false,
    metricsEnabled := false, pprofEnabled := false, logFileOpen := false }

def c1Req : clientAnnounceReq :=
  { clientId := 7, pathName := "live", sdpText := "sdp2", sdpParsed := 1 }

theorem announce_single_publisher_witness :
    handleClientAnnounce c1State c1Req = (c1State, some (errAlreadyPublishing "live")) :=
  (announce_single_publisher c1State c1Req).1
    { name := "live", confp := none, publisher := some 3, publisherReady := true,
      publisherSdpText := "sdp", publisherSdpParsed := 2 } 3 (by decide) (by decide)

/-! ## clientSetupPlay handler (src/unnamed/part_000 lines 245-259) -/

structure clientSetupPlayReq where
  clientId : Nat
  pathName : String
  trackId : Nat
deriving DecidableEq, Repr

def errNoOnePublishing (name : String) : String :=
  "no one is publishing on path " ++ name

def errTrackNotExist (trackId : Nat) : String :=
  "track " ++ toString trackId ++ " does not exist"

def handleClientSetupPlay (s : programState) (req : clientSetupPlayReq) :
    programState × Option String :=
  match alookup s.paths req.pathName with
  | none => (s, some (errNoOnePublishing req.pathName))
  | some pa =>
    if !pa.publisherReady then
      (s, some (errNoOnePublishing req.pathName))
    else if pa.publisherSdpParsed ≤ req.trackId then
      (s, some (errTrackNotExist req.trackId))
    else
      ({ s with clients :=
          setClientPathState s.clients req.clientId req.pathName .statePrePlay }, none)

/-- C3: a reader setup-play request fails exactly when the path does not
exist or its publisher is not ready (no-one-publishing error) or the track
id is at least the number of media descriptions (track-does-not-exist
error); otherwise the client is bound to the path and moved to the
pre-play state, and the paths table is unchanged. -/
theorem setupPlay_error_conditions (s : programState) (req : clientSetupPlayReq) :
    ((handleClientSetupPlay s req).2 = none ↔
      ∃ pa, alookup s.paths req.pathName = some pa ∧ pa.publisherReady = true ∧
        req.trackId < pa.publisherSdpParsed) ∧
    ((alookup s.paths req.pathName = none ∨
      (∃ pa, alookup s.paths req.pathName = some pa ∧ pa.publisherReady = false)) →
      handleClientSetupPlay s req = (s, some (errNoOnePublishing req.pathName))) ∧
    (∀ pa, alookup s.paths req.pathName = some pa → pa.publisherReady = true →
      pa.publisherSdpParsed ≤ req.trackId →
      handleClientSetupPlay s req = (s, some (errTrackNotExist req.trackId))) ∧
    ((handleClientSetupPlay s req).2 = none →
      (handleClientSetupPlay s req).1.paths = s.paths ∧
      ∃ c, alookup (handleClientSetupPlay s req).1.clients req.clientId = some c ∧
        c.path = some req.pathName ∧ c.state = .statePrePlay) ∧
    ((handleClientSetupPlay s req).2.isSome → (handleClientSetupPlay s req).1 = s) := by
  refine ⟨?_, ?_, ?_, ?_, ?_⟩
  · constructor
    · intro h
      match hlook : alookup s.paths req.pathName with
      | none => simp [handleClientSetupPlay, hlook] at h
      | some pa =>
        refine ⟨pa, rfl, ?_⟩
        by_cases hr : pa.publisherReady
        · by_cases ht : pa.publisherSdpParsed ≤ req.trackId
          · simp [handleClientSetupPlay, hlook, hr, ht] at h
          · exact ⟨hr, by omega⟩
        · simp [handleClientSetupPlay, hlook, hr] at h
    · rintro ⟨pa, hlook, hr, ht⟩
      have ht2 : ¬ pa.publisherSdpParsed ≤ req.trackId := by omega
      simp [handleClientSetupPlay, hlook, hr, ht2]
  · rintro (hlook | ⟨pa, hlook, hr⟩)
    · simp [handleClientSetupPlay, hlook]
    · simp [handleClientSetupPlay, hlook, hr]
  · intro pa hlook hr ht
    simp [handleClientSetupPlay, hlook, hr, ht]
  · intro h
    match hlook : alookup s.paths req.pathName with
    | none => simp [handleClientSetupPlay, hlook] at h
    | some pa =>
      by_cases hr : pa.publisherReady
      · by_cases ht : pa.publisherSdpParsed ≤ req.trackId
        · simp [handleClientSetupPlay, hlook, hr, ht] at h
        · refine ⟨by simp [handleClientSetupPlay, hlook, hr, ht], ?_⟩
          simp only [handleClientSetupPlay, hlook, hr, ht]
          simp [setClientPathState]
          match hc : alookup s.clients req.clientId with
          | some c =>
            exact ⟨{ c with path := some req.pathName, state := .statePrePlay },
              by simp [hc, alookup_aupdate_self], rfl, rfl⟩
          | none =>
            exact ⟨{ path := some req.pathName, state := .statePrePlay, onFrameCalls := 0 },
              by simp [hc, alookup_aupdate_self], rfl, rfl⟩
      · simp [handleClientSetupPlay, hlook, hr] at h
  · intro h
    match hlook : alookup s.paths req.pathName with
    | none => simp [handleClientSetupPlay, hlook]
    | some pa =>
      by_cases hr : pa.publisherReady
      · by_cases ht : pa.publisherSdpParsed ≤ req.trackId
        · simp [handleClientSetupPlay, hlook, hr, ht]
        · simp [handleClientSetupPlay, hlook, hr, ht] at h
      · simp [handleClientSetupPlay, hlook, hr]

def c3State : programState :=
  { c1State with
    paths := [("live", { name := "live", confp := none, publisher := some 3,
                         publisherReady := true, publisherSdpText := "sdp",
                         publisherSdpParsed := 2 })] }

theorem setupPlay_error_conditions_witness :
    handleClientSetupPlay c3State { clientId := 7, pathName := "live", trackId := 2 } =
      (c3State, some (errTrackNotExist 2)) :=
  (setupPlay_error_conditions c3State { clientId := 7, pathName := "live", trackId := 2 }).2.2.1
    { name := "live", confp := none, publisher := some 3, publisherReady := true,
      publisherSdpText := "sdp", publisherSdpParsed := 2 } (by decide) (by decide) (by decide)

/-! ## clientFrameUdp handler (src/unnamed/part_000 lines 289-301)

A matching frame triggers `rtcpReceivers[trackId].OnFrame` (modelled as the
client's `onFrameCalls` counter) and `forwardFrame(pub.client.path, ...)`
(modelled as the returned forward action). -/

structure clientFrameUdpReq where
  ip : List Nat
  port : Nat
  streamType : streamType
  buf : List Nat
deriving DecidableEq, Repr

structure forwardAction where
  pathName : Option String
  trackId : Nat
  streamType : streamType
  buf : List Nat
deriving DecidableEq, Repr

def handleClientFrameUdp (s : programState) (req : clientFrameUdpReq) :
    programState × Option forwardAction :=
  match alookup s.udpClientsByAddr (makeUdpClientAddr req.ip req.port) with
  | none => (s, none)
  | some pub =>
    if pub.streamType ≠ req.streamType then (s, none)
    else
      let clients :=
        match alookup s.clients pub.clientId with
        | some c => aupdate s.clients pub.clientId { c with onFrameCalls := c.onFrameCalls + 1 }
        | none => s.clients
      ({ s with clients := clients },
       some { pathName := (alookup s.clients pub.clientId).bind (fun c => c.path),
              trackId := pub.trackId, streamType := req.streamType, buf := req.buf })

/-- C10: a UDP frame whose source address is not registered in
`udpClientsByAddr`, or whose stream type differs from the registered one,
is discarded: no forwarding happens and the program state is unchanged;
a frame matching a registered (address, stream type) pair is forwarded to
the path of the registered publisher client with its registered track id. -/
theorem frameUdp_dispatch (s : programState) (req : clientFrameUdpReq) :
    (alookup s.udpClientsByAddr (makeUdpClientAddr req.ip req.port) = none →
      handleClientFrameUdp s req = (s, none)) ∧
    (∀ pub, alookup s.udpClientsByAddr (makeUdpClientAddr req.ip req.port) = some pub →
      pub.streamType ≠ req.streamType →
      handleClientFrameUdp s req = (s, none)) ∧
    (∀ pub, alookup s.udpClientsByAddr (makeUdpClientAddr req.ip req.port) = some pub →
      pub.streamType = req.streamType →
      (handleClientFrameUdp s req).2 =
        some { pathName := (alookup s.clients pub.clientId).bind (fun c => c.path),
               trackId := pub.trackId, streamType := req.streamType, buf := req.buf }) := by
  refine ⟨?_, ?_, ?_⟩
  · intro h
    simp [handleClientFrameUdp, h]
  · intro pub h hne
    simp [handleClientFrameUdp, h, hne]
  · intro pub h heq
    simp [handleClientFrameUdp, h, heq]

def c10State : programState :=
  { c1State with
    udpClientsByAddr :=
      [((([10, 0, 0, 1] : List Nat), (5000 : Nat)),
        { clientId := 3, trackId := 0, streamType := .rtp })] }

theorem frameUdp_dispatch_witness :
    handleClientFrameUdp c10State
      { ip := [10, 0, 0, 1], port := 5000, streamType := .rtcp, buf := [1, 2] } =
      (c10State, none) :=
  (frameUdp_dispatch c10State
      { ip := [10, 0, 0, 1], port := 5000, streamType := .rtcp, buf := [1, 2] }).2.1
    { clientId := 3, trackId := 0, streamType := .rtp } (by decide) (by decide)

/-! ## findConfForPathName (src/unnamed/part_000 lines 404-414) -/

/-- Modelled from the spec, for comparison with the source implementation:
the claim states that when no exact entry matches, the catch-all entry
keyed `all_others` applies. -/
def findConfForPathNameSpec (s : programState) (name : String) : Option Nat :=
  match alookup s.confPaths name with
  | some confp => some confp
  | none => alookup s.confPaths "all_others"

def c4State : programState :=
  { c1State with confPaths := [("all_others", 5)], paths := [] }

/-- C4 counterexample: with a configuration holding only the catch-all
entry under key `all_others`, the source implementation rejects an
unmatched name (returns none) while the claim says the catch-all entry is
returned: the catch-all key in the code is `all`, not `all_others`. -/
theorem findConf_catchall_counterexample :
    findConfForPathName c4State "mystream" = none ∧
    findConfForPathNameSpec c4State "mystream" = some 5 := by
  constructor <;> decide

/-- C4 (amended): exact name first; else the catch-all entry stored under
key `all`; else the request is rejected (no matching configuration).  In
particular, for every name present as an exact key, that entry is
returned, never the catch-all. -/
theorem findConf_exact_first (s : programState) (name : String) :
    (∀ c, alookup s.confPaths name = some c → findConfForPathName s name = some c) ∧
    (alookup s.confPaths name = none →
      findConfForPathName s name = alookup s.confPaths "all") := by
  constructor
  · intro c h
    simp [findConfForPathName, h]
  · intro h
    simp [findConfForPathName, h]

theorem findConf_exact_first_witness :
    findConfForPathName { c4State with confPaths := [("live", 9), ("all", 4)] } "live" = some 9 :=
  (findConf_exact_first { c4State with confPaths := [("live", 9), ("all", 4)] } "live").1
    9 (by decide)

/-! ## Shutdown (src/unnamed/part_000 lines 317-402)

After `terminate` is received, `program.run` starts a drain goroutine that
answers every announce / setup-play request with a terminated error and
discards all other requests (lines 322-350); it then closes all paths,
the servers, all clients (waiting for each client's done channel), the
optional metrics / pprof / log file, every request channel in source
order, and finally the `done` channel (lines 352-397).  `program.close`
(lines 399-402) blocks on `done`, so it returns only after the whole
sequence.  The sequence of shutdown actions performed by `run` is modelled
as the event list `shutdownSequence`. -/

inductive reqKind
  | metricsGather
  | clientNew
  | clientClose
  | clientDescribe
  | clientAnnounce
  | clientSetupPlay
  | clientPlay
  | clientRecordReq
  | clientFrameUdp
  | clientFrameTcp
  | sourceReady
  | sourceNotReady
  | sourceFrame
deriving DecidableEq, Repr

inductive drainAnswer
  | answeredErr (msg : String)
  | answeredNil
  | discarded
deriving DecidableEq, Repr

/-- The drain goroutine of `program.run` (lines 322-350). -/
def drainResponse : reqKind → drainAnswer
  | .metricsGather => .answeredNil
  | .clientAnnounce => .answeredErr "terminated"
  | .clientSetupPlay => .answeredErr "terminated"
  | _ => .discarded

inductive shutdownEvent
  | pathClosed (name : String)
  | serverRtspClosed
  | serverRtcpClosed
  | serverRtpClosed
  | clientClosed (id : Nat)
  | clientDoneReceived (id : Nat)
  | metricsClosed
  | pprofClosed
  | logFileClosed
  | chanClosed (k : reqKind)
  | doneClosed
deriving DecidableEq, Repr

def allReqKinds : List reqKind :=
  [.metricsGather, .clientNew, .clientClose, .clientDescribe, .clientAnnounce,
   .clientSetupPlay, .clientPlay, .clientRecordReq, .clientFrameUdp,
   .clientFrameTcp, .sourceReady, .sourceNotReady, .sourceFrame]

/-- Shutdown actions of `program.run` before `close(p.done)` (lines 352-395). -/
def shutdownBody (s : programState) : List shutdownEvent :=
  (s.paths.map (fun pr => shutdownEvent.pathClosed pr.1)) ++
  [.serverRtspClosed] ++
  (if s.hasServerRtcp then [.serverRtcpClosed] else []) ++
  (if s.hasServerRtp then [.serverRtpClosed] else []) ++
  (s.clients.map (fun pr =>
    [shutdownEvent.clientClosed pr.1, shutdownEvent.clientDoneReceived pr.1])).flatten ++
  (if s.metricsEnabled then [.metricsClosed] else []) ++
  (if s.pprofEnabled then [.pprofClosed] else []) ++
  (if s.logFileOpen then [.logFileClosed] else []) ++
  allReqKinds.map shutdownEvent.chanClosed

/-- The full shutdown action sequence; `close(p.done)` is last (line 396),
and `program.close` returns exactly when it has happened. -/
def shutdownSequence (s : programState) : List shutdownEvent :=
  shutdownBody s ++ [.doneClosed]

theorem doneClosed_not_in_body (s : programState) :
    shutdownEvent.doneClosed ∉ shutdownBody s := by
  intro h
  simp only [shutdownBody, List.mem_append, List.mem_map, List.mem_flatten, List.mem_singleton] at h
  rcases h with ((((((((⟨pr, _, hpr⟩ | h1) | h2) | h3) | ⟨l, ⟨pr, _, hpr⟩, hin⟩) | h4) | h5) | h6) | ⟨k, _, hk⟩)
  · exact shutdownEvent.noConfusion hpr
  · exact shutdownEvent.noConfusion h1
  · split at h2 <;> simp_all
  · split at h3 <;> simp_all
  · subst hpr; simp_all
  · split at h4 <;> simp_all
  · split at h5 <;> simp_all
  · split at h6 <;> simp_all
  · exact shutdownEvent.noConfusion hk

/-- C2: after the terminate signal, the drain goroutine answers every
announce and setup-play request with a terminated error; and the shutdown
sequence of `program.run` closes every path, the RTSP server (and the UDP
servers when present), every client (receiving its done channel), and every
request channel, all strictly before `close(p.done)` — which is the unique
last event, so `program.close` (which blocks on `done`) returns only after
all of them. -/
theorem shutdown_drain_and_close (s : programState) :
    drainResponse .clientAnnounce = .answeredErr "terminated" ∧
    drainResponse .clientSetupPlay = .answeredErr "terminated" ∧
    shutdownSequence s = shutdownBody s ++ [.doneClosed] ∧
    shutdownEvent.doneClosed ∉ shutdownBody s ∧
    (∀ n pa, (n, pa) ∈ s.paths → shutdownEvent.pathClosed n ∈ shutdownBody s) ∧
    (∀ i c, (i, c) ∈ s.clients →
      shutdownEvent.clientClosed i ∈ shutdownBody s ∧
      shutdownEvent.clientDoneReceived i ∈ shutdownBody s) ∧
    shutdownEvent.serverRtspClosed ∈ shutdownBody s ∧
    (s.hasServerRtcp = true → shutdownEvent.serverRtcpClosed ∈ shutdownBody s) ∧
    (s.hasServerRtp = true → shutdownEvent.serverRtpClosed ∈ shutdownBody s) ∧
    (∀ k, shutdownEvent.chanClosed k ∈ shutdownBody s) := by
  refine ⟨rfl, rfl, rfl, doneClosed_not_in_body s, ?_, ?_, ?_, ?_, ?_, ?_⟩
  · intro n pa h
    simp only [shutdownBody, List.mem_append, List.mem_map]
    exact Or.inl (Or.inl (Or.inl (Or.inl (Or.inl (Or.inl (Or.inl (Or.inl ⟨(n, pa), h, rfl⟩)))))))
  · intro i c h
    constructor <;>
    · simp only [shutdownBody, List.mem_append, List.mem_flatten, List.mem_map]
      refine Or.inl (Or.inl (Or.inl (Or.inl (Or.inr ⟨_, ⟨(i, c), h, rfl⟩, ?_⟩))))
      simp
  · simp [shutdownBody]
  · intro h
    simp [shutdownBody, h]
  · intro h
    simp [shutdownBody, h]
  · intro k
    have hk : k ∈ allReqKinds := by cases k <;> simp [allReqKinds]
    simp only [shutdownBody, List.mem_append, List.mem_map]
    exact Or.inr ⟨k, hk, rfl⟩

def c2State : programState :=
  { c1State with hasServerRtp := true, hasServerRtcp := true }

theorem shutdown_drain_and_close_witness :
    shutdownEvent.pathClosed "live" ∈ shutdownBody c2State ∧
    shutdownEvent.clientClosed 7 ∈ shutdownBody c2State ∧
    shutdownEvent.serverRtcpClosed ∈ shutdownBody c2State :=
  ⟨(shutdown_drain_and_close c2State).2.2.2.2.1 "live"
      { name := "live", confp := none, publisher := some 3, publisherReady := true,
        publisherSdpText := "sdp", publisherSdpParsed := 2 } (by decide),
   ((shutdown_drain_and_close c2State).2.2.2.2.2.1 7
      { path := none, state := .stateInitial, onFrameCalls := 0 } (by decide)).1,
   (shutdown_drain_and_close c2State).2.2.2.2.2.2.2.1 (by decide)⟩

/-! ## Credentials (internal/conf)

The `Credential` implementation file is not among the provided sources;
only its tests (src/internal/conf/credential_test.go) are.  Per the spec,
a stored credential is recognized as plain, as `sha256:` followed by the
base64 of a SHA-256 digest, or as `argon2:` followed by a PHC string
restricted to the argon2i / argon2id variants.  Values are modelled as
character lists; SHA-256 and argon2 verification are external crypto
primitives, abstracted as function parameters. -/

def stripPrefixChars : List Char → List Char → Option (List Char)
  | [], s => some s
  | _ :: _, [] => none
  | p :: ps, c :: cs => if c = p then stripPrefixChars ps cs else none

theorem stripPrefixChars_append (p s : List Char) :
    stripPrefixChars p (p ++ s) = some s := by
  induction p with
  | nil => rfl
  | cons c cs ih => simp [stripPrefixChars, ih]

/-- Modelled from the spec: the stored credential value of internal/conf. -/
structure Credential where
  value : List Char
deriving DecidableEq, Repr

def Credential.isSha256 (c : Credential) : Bool :=
  (stripPrefixChars "sha256:".toList c.value).isSome

def Credential.isArgon2 (c : Credential) : Bool :=
  (stripPrefixChars "argon2:".toList c.value).isSome

def Credential.isHashed (c : Credential) : Bool :=
  c.isSha256 || c.isArgon2

/-- Modelled from the spec: `Credential.Check(input)` — byte equality for a
plain value, comparison of the (base64-encoded) SHA-256 digest of the input
against the stored digest for a `sha256:` value, argon2 verification of the
stored PHC string for an `argon2:` value.  `sha256b64` and `argonVerify`
abstract the crypto primitives. -/
def Credential.check (sha256b64 : List Char → List Char)
    (argonVerify : List Char → List Char → Bool)
    (c : Credential) (input : List Char) : Bool :=
  match stripPrefixChars "sha256:".toList c.value with
  | some rest => decide (sha256b64 input = rest)
  | none =>
    match stripPrefixChars "argon2:".toList c.value with
    | some rest => argonVerify rest input
    | none => decide (c.value = input)

def base64Char (ch : Char) : Bool :=
  ch.isAlphanum || ch = '+' || ch = '/' || ch = '='

/-- Modelled from the spec and the test vectors: the character set allowed
in a plain credential (letters, digits, and a fixed punctuation set; the
test rejects values containing a slash or a comma). -/
def plainChar (ch : Char) : Bool :=
  ch.isAlphanum || ch ∈ "!$()*+.;<=>[]^_-@#&\x7b\x7d".toList

def splitDollarAux (acc : List Char) : List Char → List (List Char)
  | [] => [acc.reverse]
  | ch :: rest =>
    if ch = '$' then acc.reverse :: splitDollarAux [] rest
    else splitDollarAux (ch :: acc) rest

theorem splitDollarAux_ne_nil (acc l : List Char) : splitDollarAux acc l ≠ [] := by
  induction l generalizing acc with
  | nil => simp [splitDollarAux]
  | cons ch rest ih =>
    by_cases h : ch = '$' <;> simp [splitDollarAux, h, ih]

/-- Modelled from the spec: an argon2 PHC string is well formed only when
its variant field (between the first two dollar signs) is `argon2i` or
`argon2id`; in particular `argon2d` is rejected. -/
def validArgon2PHC (s : List Char) : Bool :=
  match splitDollarAux [] s with
  | [] :: variant :: _ :: _ =>
    decide (variant = "argon2i".toList) || decide (variant = "argon2id".toList)
  | _ => false

/-- Modelled from the spec: configuration validation of a credential value —
the empty value is allowed; a `sha256:` value must be nonempty base64; an
`argon2:` value must be an argon2i / argon2id PHC string; a plain value is
restricted to the plain character set. -/
def Credential.validateConfig (c : Credential) : Bool :=
  if c.value.isEmpty then true
  else
    match stripPrefixChars "sha256:".toList c.value with
    | some rest => !rest.isEmpty && rest.all base64Char
    | none =>
      match stripPrefixChars "argon2:".toList c.value with
      | some rest => validArgon2PHC rest
      | none => c.value.all plainChar

theorem splitDollarAux_dollar (acc : List Char) (rest : List Char) :
    splitDollarAux acc ('$' :: rest) = acc.reverse :: splitDollarAux [] rest := by
  simp [splitDollarAux]

/-- Splitting a dollar-free segment followed by a dollar. -/
theorem splitDollarAux_seg (seg : List Char) (hseg : '$' ∉ seg) (acc rest : List Char) :
    splitDollarAux acc (seg ++ '$' :: rest) =
      (acc.reverse ++ seg) :: splitDollarAux [] rest := by
  induction seg generalizing acc with
  | nil => simp [splitDollarAux]
  | cons ch cs ih =>
    have hch : ¬ (ch = '$') := fun h => hseg (by simp [h])
    have hcs : '$' ∉ cs := fun h => hseg (by simp [h])
    have step : splitDollarAux acc ((ch :: cs) ++ '$' :: rest)
        = splitDollarAux (ch :: acc) (cs ++ '$' :: rest) := by
      simp [splitDollarAux, hch]
    rw [step, ih hcs]
    simp

/-- Any PHC string of the argon2d variant is rejected, whatever its tail. -/
theorem validArgon2PHC_argon2d (tail : List Char) :
    validArgon2PHC ("$argon2d$".toList ++ tail) = false := by
  have hseg : ('$' : Char) ∉ "argon2d".toList := by decide
  have h1 : ("$argon2d$".toList ++ tail : List Char) =
      '$' :: ("argon2d".toList ++ '$' :: tail) := rfl
  rw [validArgon2PHC, h1, splitDollarAux_dollar, splitDollarAux_seg _ hseg]
  match hsp : splitDollarAux [] tail with
  | [] => exact absurd hsp (splitDollarAux_ne_nil [] tail)
  | x :: xs => simp

/-- C5: the three recognized credential forms and their check semantics,
plus configuration validation on the forms of the test suite, including
rejection of every argon2d PHC string. -/
theorem credential_check_and_validate :
    (∀ h v rest input,
      Credential.check h v ⟨"sha256:".toList ++ rest⟩ input = decide (h input = rest)) ∧
    (∀ h v rest input,
      Credential.check h v ⟨"argon2:".toList ++ rest⟩ input = v rest input) ∧
    (∀ h v c input, c.isSha256 = false → c.isArgon2 = false →
      Credential.check h v c input = decide (c.value = input)) ∧
    Credential.validateConfig ⟨"".toList⟩ = true ∧
    Credential.validateConfig ⟨"validPlain123".toList⟩ = true ∧
    Credential.validateConfig ⟨"invalid/Plain".toList⟩ = false ∧
    Credential.validateConfig ⟨"sha256:validBase64EncodedHash==".toList⟩ = true ∧
    Credential.validateConfig ⟨"sha256:inval*idBase64".toList⟩ = false ∧
    Credential.validateConfig
      ⟨"argon2:$argon2id$v=19$m=4096,t=3,p=1$MTIzNDU2Nzg$zarsL19s86GzUWlAkvwt4gJBFuU/A9CVuCjNI4fksow".toList⟩
      = true ∧
    Credential.validateConfig ⟨"argon2:invalid".toList⟩ = false ∧
    Credential.validateConfig
      ⟨"$argon2d$v=19$m=4096,t=3,p=1$MTIzNDU2Nzg$Xqyd4R7LzXvvAEHaVU12+Nzf5OkHoYcwIEIIYJUDpz0".toList⟩
      = false ∧
    (∀ tail, Credential.validateConfig ⟨"argon2:$argon2d$".toList ++ tail⟩ = false) := by
  refine ⟨?_, ?_, ?_, by decide, by decide, by decide, by decide, by decide,
    by decide, by decide, by decide, ?_⟩
  · intro h v rest input
    unfold Credential.check
    rw [stripPrefixChars_append]
  · intro h v rest input
    have hsha : stripPrefixChars "sha256:".toList ("argon2:".toList ++ rest) = none := rfl
    unfold Credential.check
    rw [hsha, stripPrefixChars_append]
  · intro h v c input hs ha
    unfold Credential.check
    rw [Credential.isSha256] at hs
    rw [Credential.isArgon2] at ha
    cases hx : stripPrefixChars "sha256:".toList c.value with
    | some r => rw [hx] at hs; simp at hs
    | none =>
      cases hy : stripPrefixChars "argon2:".toList c.value with
      | some r => rw [hy] at ha; simp at ha
      | none => rfl
  · intro tail
    have h1 : ("argon2:$argon2d$".toList ++ tail : List Char) =
        "argon2:".toList ++ ("$argon2d$".toList ++ tail) := rfl
    have h2 : stripPrefixChars "sha256:".toList
        ("argon2:".toList ++ ("$argon2d$".toList ++ tail)) = none := rfl
    have h3 : ("argon2:".toList ++ ("$argon2d$".toList ++ tail) : List Char).isEmpty = false := by
      simp
    rw [Credential.validateConfig]
    simp only [h1, h2, stripPrefixChars_append, validArgon2PHC_argon2d]
    simp [h3]

theorem credential_check_and_validate_witness :
    Credential.check (fun s => s) (fun _ _ => false) ⟨"password".toList⟩ "password".toList = true :=
  by
  have h := credential_check_and_validate.2.2.1 (fun s => s) (fun _ _ => false)
    ⟨"password".toList⟩ "password".toList (by decide) (by decide)
  rw [h]; decide

/-! ## Static sources (internal/core/rtmp_source.go, udp_source.go)

The run functions are embedded as trace generators: network and parser
outcomes are an input script, and the trace records the calls to
`sourceStaticImplSetReady`, `stream.WriteUnit` (via the registered
callbacks / write funcs) and `sourceStaticImplSetNotReady`, plus the
return of the reader function.  In both sources the
`defer ...SetNotReady(...)` is installed directly after the successful
`SetReady`, so it fires on every return after that point; cancellation
(ctx done) closes the connection, which surfaces as a read error. -/

inductive srcEvent
  | setReadyOk
  | setReadyFail
  | wroteUnit
  | setNotReady
  | returned
deriving DecidableEq, Repr

inductive readOutcome
  | readData (writes : Nat)
  | readErr
deriving DecidableEq, Repr

/-- The read loop of `udpSource.runReader` (udp_source.go lines 257-263):
each successful `r.Read()` runs the `OnData...` callbacks, each of which
calls `stream.WriteUnit`; a read error returns (firing the defer). -/
def udpReaderLoop : List readOutcome → List srcEvent
  | [] => []
  | .readErr :: _ => [.setNotReady, .returned]
  | .readData n :: rest => List.replicate n .wroteUnit ++ udpReaderLoop rest

/-- Embeds `udpSource.runReader` (udp_source.go lines 135-264). -/
def udpRunReader (newReaderOk setReadyOk : Bool) (reads : List readOutcome) :
    List srcEvent :=
  if !newReaderOk then [.returned]
  else if !setReadyOk then [.setReadyFail, .returned]
  else .setReadyOk :: udpReaderLoop reads

inductive rtmpMsg
  | msgVideo
  | msgAudio
  | msgOther
  | msgErr
deriving DecidableEq, Repr

/-- The message loop of `rtmpSource.run`'s reader goroutine
(rtmp_source.go lines 160-188): a video/audio message with its track set
up calls the write func (which writes units; its error is only logged); a
video/audio message without the track returns an error; a read error
returns.  Every return after `SetReady` fires the deferred
`SetNotReady`. -/
def rtmpReadLoop (hasVideo hasAudio : Bool) : List rtmpMsg → List srcEvent
  | [] => []
  | .msgErr :: _ => [.setNotReady, .returned]
  | .msgVideo :: rest =>
    if hasVideo then .wroteUnit :: rtmpReadLoop hasVideo hasAudio rest
    else [.setNotReady, .returned]
  | .msgAudio :: rest =>
    if hasAudio then .wroteUnit :: rtmpReadLoop hasVideo hasAudio rest
    else [.setNotReady, .returned]
  | .msgOther :: rest => rtmpReadLoop hasVideo hasAudio rest

/-- The reader goroutine of `rtmpSource.run` (rtmp_source.go lines 100-190). -/
def rtmpRunReader (initOk readTracksOk videoH265 hasVideo hasAudio setReadyOk : Bool)
    (msgs : List rtmpMsg) : List srcEvent :=
  if !initOk then [.returned]
  else if !readTracksOk then [.returned]
  else if videoH265 then [.returned]
  else if !setReadyOk then [.setReadyFail, .returned]
  else .setReadyOk :: rtmpReadLoop hasVideo hasAudio msgs

/-- Checker with accumulator `ready` (true once `SetReady` has succeeded):
every `wroteUnit` must be
preceded by a successful `SetReady`. -/
def writesAfterReady (ready : Bool) : List srcEvent → Bool
  | [] => true
  | .wroteUnit :: rest => ready && writesAfterReady ready rest
  | .setReadyOk :: rest => writesAfterReady true rest
  | _ :: rest => writesAfterReady ready rest

/-- Phase 0: `SetReady` has not succeeded (returning is fine); phase 1:
`SetReady` succeeded and `SetNotReady` is still pending (returning is a
violation); phase 2: `SetNotReady` done. -/
def notReadyBeforeReturn : Nat → List srcEvent → Bool
  | _, [] => true
  | 0, .setReadyOk :: rest => notReadyBeforeReturn 1 rest
  | 1, .setNotReady :: rest => notReadyBeforeReturn 2 rest
  | 1, .returned :: _ => false
  | phase, _ :: rest => notReadyBeforeReturn phase rest

theorem writesAfterReady_replicate (n : Nat) (rest : List srcEvent) :
    writesAfterReady true (List.replicate n .wroteUnit ++ rest) =
      writesAfterReady true rest := by
  induction n with
  | zero => rfl
  | succ m ih => simp [List.replicate_succ, writesAfterReady, ih]

theorem udpReaderLoop_writes (reads : List readOutcome) :
    writesAfterReady true (udpReaderLoop reads) = true := by
  induction reads with
  | nil => rfl
  | cons r rest ih =>
    cases r with
    | readErr => rfl
    | readData n => simp [udpReaderLoop, writesAfterReady_replicate, ih]

theorem notReadyBeforeReturn_replicate (n : Nat) (rest : List srcEvent) :
    notReadyBeforeReturn 1 (List.replicate n .wroteUnit ++ rest) =
      notReadyBeforeReturn 1 rest := by
  induction n with
  | zero => rfl
  | succ m ih => simp [List.replicate_succ, notReadyBeforeReturn, ih]

theorem udpReaderLoop_notReady (reads : List readOutcome) :
    notReadyBeforeReturn 1 (udpReaderLoop reads) = true := by
  induction reads with
  | nil => rfl
  | cons r rest ih =>
    cases r with
    | readErr => rfl
    | readData n => simp [udpReaderLoop, notReadyBeforeReturn_replicate, ih]

theorem rtmpReadLoop_writes (hv ha : Bool) (msgs : List rtmpMsg) :
    writesAfterReady true (rtmpReadLoop hv ha msgs) = true := by
  induction msgs with
  | nil => rfl
  | cons m rest ih =>
    cases m with
    | msgErr => rfl
    | msgOther => simpa [rtmpReadLoop, writesAfterReady] using ih
    | msgVideo =>
      cases hv with
      | true => simp [rtmpReadLoop, writesAfterReady, ih]
      | false => simp [rtmpReadLoop, writesAfterReady]
    | msgAudio =>
      cases ha with
      | true => simp [rtmpReadLoop, writesAfterReady, ih]
      | false => simp [rtmpReadLoop, writesAfterReady]

theorem rtmpReadLoop_notReady (hv ha : Bool) (msgs : List rtmpMsg) :
    notReadyBeforeReturn 1 (rtmpReadLoop hv ha msgs) = true := by
  induction msgs with
  | nil => rfl
  | cons m rest ih =>
    cases m with
    | msgErr => rfl
    | msgOther => simpa [rtmpReadLoop, notReadyBeforeReturn] using ih
    | msgVideo =>
      cases hv with
      | true => simp [rtmpReadLoop, notReadyBeforeReturn, ih]
      | false => simp [rtmpReadLoop, notReadyBeforeReturn]
    | msgAudio =>
      cases ha with
      | true => simp [rtmpReadLoop, notReadyBeforeReturn, ih]
      | false => simp [rtmpReadLoop, notReadyBeforeReturn]

/-- C6: in every execution of the RTMP and the UDP/MPEG-TS static-source
run functions, every `WriteUnit` happens after the source's `SetReady`
request was answered successfully, and whenever `SetReady` succeeded,
`SetNotReady` is invoked before the run function returns — whether the run
ends in an error or in cancellation. -/
theorem static_source_ready_protocol :
    (∀ nOk sOk reads,
      writesAfterReady false (udpRunReader nOk sOk reads) = true ∧
      notReadyBeforeReturn 0 (udpRunReader nOk sOk reads) = true) ∧
    (∀ iOk tOk h265 hv ha sOk msgs,
      writesAfterReady false (rtmpRunReader iOk tOk h265 hv ha sOk msgs) = true ∧
      notReadyBeforeReturn 0 (rtmpRunReader iOk tOk h265 hv ha sOk msgs) = true) := by
  constructor
  · intro nOk sOk reads
    cases nOk with
    | false => exact ⟨rfl, rfl⟩
    | true =>
      cases sOk with
      | false => exact ⟨rfl, rfl⟩
      | true =>
        constructor
        · simp [udpRunReader, writesAfterReady, udpReaderLoop_writes]
        · simp [udpRunReader, notReadyBeforeReturn, udpReaderLoop_notReady]
  · intro iOk tOk h265 hv ha sOk msgs
    cases iOk with
    | false => exact ⟨rfl, rfl⟩
    | true =>
      cases tOk with
      | false => exact ⟨rfl, rfl⟩
      | true =>
        cases h265 with
        | true => exact ⟨rfl, rfl⟩
        | false =>
          cases sOk with
          | false => exact ⟨rfl, rfl⟩
          | true =>
            constructor
            · simp [rtmpRunReader, writesAfterReady, rtmpReadLoop_writes]
            · simp [rtmpRunReader, notReadyBeforeReturn, rtmpReadLoop_notReady]

/-! ## Recorder agent (package record, src/unnamed/part_000 lines 874-950
and 1360-1368)

The H264 branch of `record.NewAgent` and `record.Agent.updateCodecs` are
embedded.  NAL units are byte lists; the recorder state carries the
current codec parameters, whether the DTS extractor has been created, and
the current segment (nil / allocated without file / file open).  The
callback produces the final state together with the ordered list of
segment-close and sample-record events. -/

def defaultSPS : List Nat :=
  [0x67, 0x42, 0xc0, 0x1f, 0xd9, 0x00, 0xf0, 0x11,
   0x7e, 0xf0, 0x11, 0x00, 0x00, 0x03, 0x00, 0x01,
   0x00, 0x00, 0x03, 0x00, 0x30, 0x8f, 0x18, 0x32,
   0x48]

def defaultPPS : List Nat := [0x68, 0xcb, 0x8c, 0xb2]

structure CodecH264 where
  sps : List Nat
  pps : List Nat
deriving DecidableEq, Repr

/-- The H264 codec seeding of `record.NewAgent` (lines 875-893): if either
parameter set is unsignaled (nil), both are replaced by the built-in safe
defaults. -/
def h264InitCodec (sps pps : Option (List Nat)) : CodecH264 :=
  match sps, pps with
  | some s, some p => { sps := s, pps := p }
  | _, _ => { sps := defaultSPS, pps := defaultPPS }

inductive segmentState
  | noSegment
  | openNoFile
  | openWithFile
deriving DecidableEq, Repr

/-- Embeds `record.Agent.updateCodecs` (lines 1360-1368): when a segment exists
and has already written to disk, it is closed and dropped; the returned
flag records whether a close happened. -/
def updateCodecs : segmentState → segmentState × Bool
  | .openWithFile => (.noSegment, true)
  | st => (st, false)

structure agentH264State where
  codec : CodecH264
  hasDtsExtractor : Bool
  seg : segmentState
deriving DecidableEq, Repr

inductive recEvent
  | segmentClosed
  | sampleRecorded
deriving DecidableEq, Repr

/-- Embeds `h264.NALUType(nalu[0] & 0x1F)`; SPS = 7, PPS = 8, IDR = 5. -/
def naluType (nalu : List Nat) : Nat := nalu.headD 0 % 32

/-- One iteration of the NALU loop of the H264 reader callback
(lines 906-924). -/
def h264ProcessNALU (st : agentH264State) (ra : Bool) (nalu : List Nat) :
    agentH264State × Bool × List recEvent :=
  if naluType nalu = 7 then
    if st.codec.sps ≠ nalu then
      let u := updateCodecs st.seg
      ({ st with codec := { st.codec with sps := nalu }, seg := u.1 }, ra,
       if u.2 then [.segmentClosed] else [])
    else (st, ra, [])
  else if naluType nalu = 8 then
    if st.codec.pps ≠ nalu then
      let u := updateCodecs st.seg
      ({ st with codec := { st.codec with pps := nalu }, seg := u.1 }, ra,
       if u.2 then [.segmentClosed] else [])
    else (st, ra, [])
  else if naluType nalu = 5 then (st, true, [])
  else (st, ra, [])

def h264ProcessAU (st : agentH264State) (ra : Bool) :
    List (List Nat) → agentH264State × Bool × List recEvent
  | [] => (st, ra, [])
  | nalu :: rest =>
    let r := h264ProcessNALU st ra nalu
    let r2 := h264ProcessAU r.1 r.2.1 rest
    (r2.1, r2.2.1, r.2.2 ++ r2.2.2)

/-- The H264 reader callback (lines 898-950): a nil AU is ignored; the
NALU loop may update codec parameters (closing the open segment); without
a DTS extractor a non-random-access unit is dropped; `dtsOk` abstracts the
success of DTS extraction and part-sample construction; on success the
sample is recorded. -/
def h264OnUnit (st : agentH264State) (au : Option (List (List Nat))) (dtsOk : Bool) :
    agentH264State × List recEvent :=
  match au with
  | none => (st, [])
  | some au =>
    let r := h264ProcessAU st false au
    let st1 := r.1
    let ra := r.2.1
    let evs := r.2.2
    if !st1.hasDtsExtractor && !ra then (st1, evs)
    else
      let st2 := { st1 with hasDtsExtractor := true }
      if !dtsOk then (st2, evs)
      else (st2, evs ++ [.sampleRecorded])

/-- No segment close event occurs after a sample-record event. -/
def noSegCloseAfterRecord : List recEvent → Bool
  | [] => true
  | .sampleRecorded :: rest => rest.all (fun e => decide (e = recEvent.sampleRecorded))
  | .segmentClosed :: rest => noSegCloseAfterRecord rest

theorem h264ProcessNALU_events_segClosed (st : agentH264State) (ra : Bool)
    (nalu : List Nat) :
    ∀ e ∈ (h264ProcessNALU st ra nalu).2.2, e = recEvent.segmentClosed := by
  intro e he
  unfold h264ProcessNALU at he
  split at he
  · split at he
    · simp only at he
      split at he <;> simp_all
    · simp at he
  · split at he
    · split at he
      · simp only at he
        split at he <;> simp_all
      · simp at he
    · split at he <;> simp at he

theorem h264ProcessAU_events_segClosed (au : List (List Nat)) :
    ∀ st ra, ∀ e ∈ (h264ProcessAU st ra au).2.2, e = recEvent.segmentClosed := by
  induction au with
  | nil => intro st ra e he; simp [h264ProcessAU] at he
  | cons nalu rest ih =>
    intro st ra e he
    simp only [h264ProcessAU, List.mem_append] at he
    rcases he with he | he
    · exact h264ProcessNALU_events_segClosed st ra nalu e he
    · exact ih _ _ e he

theorem noSegCloseAfterRecord_of_all_closed (l : List recEvent)
    (h : ∀ e ∈ l, e = recEvent.segmentClosed) :
    noSegCloseAfterRecord l = true ∧
    noSegCloseAfterRecord (l ++ [recEvent.sampleRecorded]) = true := by
  induction l with
  | nil => exact ⟨rfl, rfl⟩
  | cons e rest ih =>
    have he : e = recEvent.segmentClosed := h e (by simp)
    subst he
    have ih2 := ih (fun e he => h e (by simp [he]))
    exact ⟨by simpa [noSegCloseAfterRecord] using ih2.1,
           by simpa [noSegCloseAfterRecord] using ih2.2⟩

/-- C7: when the publisher has not signaled H.264 parameters, the recorder
seeds the track with the built-in defaults; and whenever an in-band SPS or
PPS differs from the stored one, the stored parameter is replaced and the
currently open (written-to) segment is closed, with every segment close
happening before the sample of the access unit is recorded. -/
theorem recorder_defaults_and_rotation :
    (∀ sps pps, sps = none ∨ pps = none →
      h264InitCodec sps pps = { sps := defaultSPS, pps := defaultPPS }) ∧
    (∀ s p, h264InitCodec (some s) (some p) = { sps := s, pps := p }) ∧
    (∀ st ra nalu, naluType nalu = 7 → st.codec.sps ≠ nalu → st.seg = .openWithFile →
      h264ProcessNALU st ra nalu =
        ({ st with codec := { st.codec with sps := nalu }, seg := .noSegment }, ra,
         [.segmentClosed])) ∧
    (∀ st ra nalu, naluType nalu = 8 → st.codec.pps ≠ nalu → st.seg = .openWithFile →
      h264ProcessNALU st ra nalu =
        ({ st with codec := { st.codec with pps := nalu }, seg := .noSegment }, ra,
         [.segmentClosed])) ∧
    (∀ st au dtsOk, noSegCloseAfterRecord ((h264OnUnit st au dtsOk).2) = true) := by
  refine ⟨?_, ?_, ?_, ?_, ?_⟩
  · rintro sps pps (h | h)
    · subst h; cases pps <;> rfl
    · subst h; cases sps <;> rfl
  · intro s p
    rfl
  · intro st ra nalu h7 hne hseg
    simp [h264ProcessNALU, h7, hne, hseg, updateCodecs]
  · intro st ra nalu h8 hne hseg
    have h7 : ¬ (naluType nalu = 7) := by omega
    simp [h264ProcessNALU, h7, h8, hne, hseg, updateCodecs]
  · intro st au dtsOk
    match au with
    | none => rfl
    | some au =>
      have hall := h264ProcessAU_events_segClosed au st false
      have hc := noSegCloseAfterRecord_of_all_closed _ hall
      simp only [h264OnUnit]
      split
      · exact hc.1
      · split
        · exact hc.1
        · exact hc.2

def c7State : agentH264State :=
  { codec := { sps := defaultSPS, pps := defaultPPS }, hasDtsExtractor := true,
    seg := .openWithFile }

theorem recorder_defaults_and_rotation_witness :
    h264InitCodec none (some [0x68]) = { sps := defaultSPS, pps := defaultPPS } ∧
    h264ProcessNALU c7State false [0x67, 0x01] =
      ({ c7State with codec := { c7State.codec with sps := [0x67, 0x01] },
                      seg := .noSegment }, false, [.segmentClosed]) :=
  ⟨recorder_defaults_and_rotation.1 none (some [0x68]) (Or.inl rfl),
   recorder_defaults_and_rotation.2.2.1 c7State false [0x67, 0x01]
     (by decide) (by decide) (by decide)⟩

/-! ## External commands (internal/externalcmd/cmd.go lines 74-102)

`Cmd.run` is embedded as a trace generator over a script: each entry is
the outcome of one `runOSSpecific` execution together with a flag telling
whether the terminate channel is (chosen) closed at the restart-pause
select.  The trace records `onExit` invocations (with whether the error is
the synthetic command-exited-with-code-0 one), restart pauses with their
length in seconds, and the return of `run`.  An empty remaining script
means the command is still running. -/

/-- Embeds `restartPause = 5 * time.Second` (cmd.go lines 11-13), in seconds. -/
def restartPause : Nat := 5

inductive runOutcome
  | exitTerminated
  | exitError
  | exitZero
deriving DecidableEq, Repr

inductive cmdEvent
  | calledOnExit (synthetic : Bool)
  | paused (secs : Nat)
  | returned
deriving DecidableEq, Repr

def cmdRun (restart : Bool) : List (runOutcome × Bool) → List cmdEvent
  | [] => []
  | (.exitTerminated, _) :: _ => [.returned]
  | (.exitError, term) :: rest =>
    if !restart then [.calledOnExit false, .returned]
    else .calledOnExit false ::
      (if term then [.returned] else .paused restartPause :: cmdRun restart rest)
  | (.exitZero, term) :: rest =>
    if !restart then [.returned]
    else .calledOnExit true ::
      (if term then [.returned] else .paused restartPause :: cmdRun restart rest)

def onExitCount : List cmdEvent → Nat
  | [] => 0
  | .calledOnExit _ :: rest => 1 + onExitCount rest
  | _ :: rest => onExitCount rest

/-- Number of command exits handled before `run` returns (or before the
script runs out): a terminated exit is not handled, and a pause at which
the terminate channel is closed stops the loop. -/
def processedExits : List (runOutcome × Bool) → Nat
  | [] => 0
  | (.exitTerminated, _) :: _ => 0
  | (_, term) :: rest => 1 + (if term then 0 else processedExits rest)

def pausesAreFixed : List cmdEvent → Bool
  | [] => true
  | .paused n :: rest => decide (n = restartPause) && pausesAreFixed rest
  | _ :: rest => pausesAreFixed rest

/-- C8: with restart enabled, every exit (other than one caused by
termination) invokes `onExit` exactly once — with a synthetic error when
the exit code was 0 — followed by a fixed 5-second pause before the
re-run, until the terminate channel is closed; an exit caused by
termination returns without invoking `onExit`; with restart disabled,
`onExit` is invoked at most once, never with the synthetic error, only on
a non-nil error, and the runner returns. -/
theorem externalcmd_restart_loop :
    (∀ script, onExitCount (cmdRun true script) = processedExits script) ∧
    (∀ script, pausesAreFixed (cmdRun true script) = true) ∧
    (∀ r t rest, cmdRun r ((runOutcome.exitTerminated, t) :: rest) = [.returned]) ∧
    (∀ rest, cmdRun true ((runOutcome.exitError, false) :: rest) =
      .calledOnExit false :: .paused restartPause :: cmdRun true rest) ∧
    (∀ rest, cmdRun true ((runOutcome.exitZero, false) :: rest) =
      .calledOnExit true :: .paused restartPause :: cmdRun true rest) ∧
    (∀ rest, cmdRun true ((runOutcome.exitError, true) :: rest) =
      [.calledOnExit false, .returned]) ∧
    (∀ rest, cmdRun true ((runOutcome.exitZero, true) :: rest) =
      [.calledOnExit true, .returned]) ∧
    (∀ script, onExitCount (cmdRun false script) ≤ 1) ∧
    (∀ script, cmdEvent.calledOnExit true ∉ cmdRun false script) ∧
    (∀ t rest, cmdRun false ((runOutcome.exitError, t) :: rest) =
      [.calledOnExit false, .returned]) ∧
    (∀ t rest, cmdRun false ((runOutcome.exitZero, t) :: rest) = [.returned]) ∧
    restartPause = 5 := by
  refine ⟨?_, ?_, ?_, ?_, ?_, ?_, ?_, ?_, ?_, ?_, ?_, rfl⟩
  · intro script
    induction script with
    | nil => rfl
    | cons entry rest ih =>
      obtain ⟨outcome, term⟩ := entry
      cases outcome with
      | exitTerminated => rfl
      | exitError =>
        cases term with
        | true => simp [cmdRun, onExitCount, processedExits]
        | false => simp [cmdRun, onExitCount, processedExits, ih]
      | exitZero =>
        cases term with
        | true => simp [cmdRun, onExitCount, processedExits]
        | false => simp [cmdRun, onExitCount, processedExits, ih]
  · intro script
    induction script with
    | nil => rfl
    | cons entry rest ih =>
      obtain ⟨outcome, term⟩ := entry
      cases outcome with
      | exitTerminated => rfl
      | exitError =>
        cases term with
        | true => rfl
        | false => simp [cmdRun, pausesAreFixed, ih]
      | exitZero =>
        cases term with
        | true => rfl
        | false => simp [cmdRun, pausesAreFixed, ih]
  · intro r t rest
    cases r <;> rfl
  · intro rest; rfl
  · intro rest; rfl
  · intro rest; rfl
  · intro rest; rfl
  · intro script
    match script with
    | [] => exact Nat.zero_le 1
    | (.exitTerminated, _) :: _ => simp [cmdRun, onExitCount]
    | (.exitError, _) :: _ => simp [cmdRun, onExitCount]
    | (.exitZero, _) :: _ => simp [cmdRun, onExitCount]
  · intro script
    match script with
    | [] => simp [cmdRun]
    | (.exitTerminated, _) :: _ => simp [cmdRun]
    | (.exitError, _) :: _ => simp [cmdRun]
    | (.exitZero, _) :: _ => simp [cmdRun]
  · intro t rest; rfl
  · intro t rest; rfl

theorem externalcmd_restart_loop_witness :
    cmdRun true [(.exitZero, false), (.exitError, true)] =
      [.calledOnExit true, .paused restartPause, .calledOnExit false, .returned] := by
  rw [externalcmd_restart_loop.2.2.2.2.1 [(runOutcome.exitError, true)]]
  rw [externalcmd_restart_loop.2.2.2.2.2.1 ([] : List (runOutcome × Bool))]

/-! ## jpegExtractSize (package record, src/unnamed/part_000 lines 517-570)

Bytes are naturals; the external `jpeg.StartOfFrame1.Unmarshal` parser is
abstracted as a function parameter returning the frame size or an error.
Go runtime panics from out-of-bounds slice indexing / slicing are made
explicit as the `crash` result. -/

inductive jpegResult
  | sizeOk (w h : Nat)
  | parseErr (msg : String)
  | crash
deriving DecidableEq, Repr

/-- The markers whose segment is skipped: 0xE0-0xE2 (JFIF), DHT (0xC4),
comment (0xFE), DQT (0xDB), DRI (0xDD). -/
def jpegSkipMarkers : List Nat := [0xE0, 0xE1, 0xE2, 0xC4, 0xFE, 0xDB, 0xDD]

/-- The marker loop of `jpegExtractSize` (lines 525-569).  Reading the two
marker-length bytes (`image[0]`, `image[1]`) is not guarded by a length
check in the source; on a remainder shorter than 2 this is an
out-of-bounds index (`crash`), and `image[2:mlen]` with `mlen < 2` is an
out-of-range slice (`crash`). -/
def jpegLoop (sof : List Nat → Option (Nat × Nat)) (image : List Nat) : jpegResult :=
  match image with
  | h0 :: h1 :: rest =>
    if h0 ≠ 0xFF then .parseErr "invalid image"
    else if h1 ∈ jpegSkipMarkers then
      match rest with
      | m0 :: m1 :: tail =>
        let mlen := m0 * 256 + m1
        if (m0 :: m1 :: tail).length < mlen then .parseErr "not enough bits"
        else jpegLoop sof ((m0 :: m1 :: tail).drop mlen)
      | _ => .crash
    else if h1 = 0xC0 then
      match rest with
      | m0 :: m1 :: _ =>
        let mlen := m0 * 256 + m1
        if rest.length < mlen then .parseErr "not enough bits"
        else if mlen < 2 then .crash
        else
          match sof ((rest.drop 2).take (mlen - 2)) with
          | some wh => .sizeOk wh.1 wh.2
          | none => .parseErr "sof unmarshal error"
      | _ => .crash
    else if h1 = 0xDA then .parseErr "SOF not found"
    else .parseErr "unknown marker"
  | _ => .parseErr "not enough bits"
termination_by image.length
decreasing_by
  simp only [List.length_drop, List.length_cons]
  omega

/-- Embeds `jpegExtractSize` (lines 517-570): header check for FF D8, then the
marker loop. -/
def jpegExtractSize (sof : List Nat → Option (Nat × Nat)) (image : List Nat) :
    jpegResult :=
  match image with
  | b0 :: b1 :: rest =>
    if b0 ≠ 0xFF ∨ b1 ≠ 0xD8 then .parseErr "invalid header"
    else jpegLoop sof rest
  | _ => .parseErr "invalid header"

/-- C9: the claim that `jpegExtractSize` never indexes past the end fails:
on the input FF D8 FF E0 the marker-length read `image[0]` is performed on
an empty remainder, an index out of range — a runtime panic in Go rather
than a `(0, 0, error)` return. -/
theorem jpegExtractSize_length_read_oob (sof : List Nat → Option (Nat × Nat)) :
    jpegExtractSize sof [0xFF, 0xD8, 0xFF, 0xE0] = .crash := by
  have h1 : jpegLoop sof [0xFF, 0xE0] = .crash := by
    simp [jpegLoop, jpegSkipMarkers]
  rw [jpegExtractSize]
  norm_num [h1]

end Mediamtx
